import Mathlib

/-!
Shallow embedding of the color-guessing game in `src/src/App.tsx`
(isth3root/colors): the ColorMath conversions (`hslToRgb`, `rgbToHsl`,
`calculateSimilarity`, `rgbToHex`), the wheel renderer's per-pixel
computation (`drawColorWheel`), the canvas pixel read-back, and the click
resolution step (`handleCanvasClick`).

JavaScript numbers are modelled as exact rationals/reals (every IEEE double
is a rational); `Math.round`, `Math.trunc`-based `%`, and `Math.sqrt` are
modelled exactly over a linearly ordered field with floor.
-/

namespace Colors

variable {α : Type} [LinearOrderedField α] [FloorRing α]

/-- JavaScript `Math.trunc`: rounds toward zero. -/
def jsTrunc (x : α) : ℤ := if 0 ≤ x then ⌊x⌋ else -⌊-x⌋

/-- JavaScript `%` (remainder): `a % b = a - b * Math.trunc (a / b)`,
so the result carries the sign of the dividend. -/
def jsMod (a b : α) : α := a - b * (jsTrunc (a / b) : α)

/-- JavaScript `Math.round`: rounds half toward positive infinity. -/
def jsRound (x : α) : ℤ := ⌊x + 1/2⌋

/-- The three unrounded channel values `(r+m)*255, (g+m)*255, (b+m)*255`
computed inside `hslToRgb` (App.tsx lines 34-45), before `Math.round`. -/
def hslChannels (h s l : α) : α × α × α :=
  let c := (1 - |2 * l - 1|) * s
  let x := c * (1 - |jsMod (h / 60) 2 - 1|)
  let m := l - c / 2
  let rgb : α × α × α :=
    if 0 ≤ h ∧ h < 60 then (c, x, 0)
    else if h < 120 then (x, c, 0)
    else if h < 180 then (0, c, x)
    else if h < 240 then (0, x, c)
    else if h < 300 then (x, 0, c)
    else (c, 0, x)
  ((rgb.1 + m) * 255, (rgb.2.1 + m) * 255, (rgb.2.2 + m) * 255)

/-- `hslToRgb` (App.tsx lines 34-46): sector lookup on the raw hue, then
`Math.round` on each channel. -/
def hslToRgb (h s l : α) : ℤ × ℤ × ℤ :=
  let ch := hslChannels h s l
  (jsRound ch.1, jsRound ch.2.1, jsRound ch.2.2)

/-- `rgbToHsl` (App.tsx lines 164-181): channels are divided by 255,
`switch (max)` compares against `r`, then `g`, then `b` in order;
in the achromatic case `d = 0` both `h` and `s` stay 0. -/
def rgbToHsl (r g b : α) : α × α × α :=
  let r' := r / 255
  let g' := g / 255
  let b' := b / 255
  let mx := max (max r' g') b'
  let mn := min (min r' g') b'
  let l := (mx + mn) / 2
  let d := mx - mn
  if d ≠ 0 then
    let s := d / (1 - |2 * l - 1|)
    let h0 :=
      if mx = r' then jsMod ((g' - b') / d) 6
      else if mx = g' then (b' - r') / d + 2
      else if mx = b' then (r' - g') / d + 4
      else 0
    let h1 := h0 * 60
    let h2 := if h1 < 0 then h1 + 360 else h1
    (h2, s, l)
  else (0, 0, l)

/-- JavaScript `String.prototype.padStart(2, '0')`. -/
def padStart2 (l : List Char) : List Char := List.replicate (2 - l.length) '0' ++ l

/-- `rgbToHex` (App.tsx lines 31-32): each channel via `toString(16)`
(lowercase minimal hex, modelled by `Nat.toDigits 16`), padded to two
digits, joined and uppercased, prefixed with `#`. -/
def rgbToHex (r g b : ℕ) : String :=
  String.mk ('#' ::
    ((padStart2 (Nat.toDigits 16 r) ++ padStart2 (Nat.toDigits 16 g) ++
      padStart2 (Nat.toDigits 16 b)).map Char.toUpper))

/-- Value of a hexadecimal digit character, either case. -/
def hexDigitVal (c : Char) : Option ℕ :=
  if '0' ≤ c ∧ c ≤ '9' then some (c.toNat - '0'.toNat)
  else if 'a' ≤ c ∧ c ≤ 'f' then some (c.toNat - 'a'.toNat + 10)
  else if 'A' ≤ c ∧ c ≤ 'F' then some (c.toNat - 'A'.toNat + 10)
  else none

/-- JavaScript `parseInt(s, 16)` on a string with no leading whitespace or
sign (the only shapes fed to it here: two-character slices): parses the
longest prefix of hexadecimal digits; yields `none` (JS `NaN`) when the
string starts with a non-digit. -/
def parseIntHex (s : String) : Option ℕ :=
  let ds := s.toList.takeWhile (fun c => (hexDigitVal c).isSome)
  if ds = [] then none
  else some (ds.foldl (fun acc c => 16 * acc + (hexDigitVal c).getD 0) 0)

/-- JavaScript `String.prototype.slice(a, b)` for `0 ≤ a ≤ b`. -/
def jsSlice (s : String) (a b : ℕ) : String :=
  String.mk ((s.toList.drop a).take (b - a))

/-- The two uppercase hexadecimal digit characters of one channel, as
produced for each channel inside `rgbToHex`. -/
def byteChars (v : ℕ) : List Char :=
  (padStart2 (Nat.toDigits 16 v)).map Char.toUpper

/-- An uppercase hexadecimal digit: `0`-`9` or `A`-`F`. -/
def isUpperHexDigit (c : Char) : Bool :=
  ('0' ≤ c && c ≤ '9') || ('A' ≤ c && c ≤ 'F')

/-- Modelled from the spec: a well-formed encoded color string is `#`
followed by exactly six hexadecimal digits; anything else is malformed.
Used only to state which inputs count as malformed; the source has no such
check. -/
def specWellFormedHex (s : String) : Bool :=
  match s.toList with
  | '#' :: cs => cs.length == 6 && cs.all fun c => (hexDigitVal c).isSome
  | _ => false

/-- The similarity formula of `calculateSimilarity` (App.tsx lines 98-99)
on already-parsed channels: `(1 - distance / sqrt (3 * 255²)) * 100`. -/
noncomputable def similarityOfChannels (r1 g1 b1 r2 g2 b2 : ℝ) : ℝ :=
  (1 - Real.sqrt ((r1 - r2) ^ 2 + (g1 - g2) ^ 2 + (b1 - b2) ^ 2) /
    Real.sqrt (3 * 255 ^ 2)) * 100

/-- `calculateSimilarity` (App.tsx lines 91-100): channels parsed from the
slices `[1,3) [3,5) [5,7)` of each hex string; a channel that parses to
JS `NaN` makes the whole result `NaN`, modelled as `none`. -/
noncomputable def calculateSimilarity (hex1 hex2 : String) : Option ℝ :=
  match parseIntHex (jsSlice hex1 1 3), parseIntHex (jsSlice hex1 3 5),
        parseIntHex (jsSlice hex1 5 7), parseIntHex (jsSlice hex2 1 3),
        parseIntHex (jsSlice hex2 3 5), parseIntHex (jsSlice hex2 5 7) with
  | some r1, some g1, some b1, some r2, some g2, some b2 =>
      some (similarityOfChannels r1 g1 b1 r2 g2 b2)
  | _, _, _, _, _, _ => none

/-- Pixel read-back as performed by `handleCanvasClick` (App.tsx lines
238-241) via `ctx.getImageData(x, y, 1, 1)`. Models the HTML canvas
`getImageData` semantics: coordinates outside the bitmap, and unpainted
pixels, read as transparent black `(0, 0, 0)`; no error is raised. -/
def readPixel (size : ℕ) (raster : ℕ → ℕ → Option (ℕ × ℕ × ℕ))
    (x y : ℤ) : ℕ × ℕ × ℕ :=
  if 0 ≤ x ∧ x < (size : ℤ) ∧ 0 ≤ y ∧ y < (size : ℤ) then
    match raster x.toNat y.toNat with
    | some c => c
    | none => (0, 0, 0)
  else (0, 0, 0)

/-- Per-pixel computation of `drawColorWheel` (App.tsx lines 62-89) for a
square canvas of side `size`: `none` when the pixel is skipped (left as the
transparent pixels of `createImageData`), otherwise the painted RGB triple.
`Math.atan2(dy, dx)` is `Complex.arg ⟨dx, dy⟩`. -/
noncomputable def wheelPixel (size : ℕ) (x y : ℕ) : Option (ℤ × ℤ × ℤ) :=
  let radius : ℝ := size / 2
  let dx : ℝ := x - radius
  let dy : ℝ := y - radius
  let distance := Real.sqrt (dx ^ 2 + dy ^ 2)
  if distance > radius then none
  else
    let angle := Complex.arg ⟨dx, dy⟩ * 180 / Real.pi
    let hue := jsMod (angle + 360) 360
    let sat := distance / radius
    some (hslToRgb hue sat (1 / 2))

/-- The target color state: hex encoding plus display name
(App.tsx lines 4-7). -/
structure Color where
  hex : String
  name : String

/-- The feedback message set by the click handler; it carries the computed
similarity (`none` = JS `NaN`), standing for the formatted string. -/
inductive FeedbackMsg
  | empty
  | correct (sim : Option ℝ)
  | wrong (sim : Option ℝ)

/-- The component state touched by `handleCanvasClick`: React state hooks
(App.tsx lines 16-29) plus the list of leaderboard submissions performed
through `submitScore`. -/
structure GameState where
  score : ℕ
  highScore : ℕ
  targetColor : Option Color
  feedback : FeedbackMsg
  gameOver : Bool
  showNextButton : Bool
  displayName : String
  clickPoint : Option (ℤ × ℤ)
  submissions : List (String × ℕ)

/-- The branch condition `similarity >= 90` (App.tsx line 246); JS `NaN`
(here `none`) compares false. -/
def simPasses (sim : Option ℝ) : Prop := ∃ v, sim = some v ∧ 90 ≤ v

/-- The display-name resolution of the game-over branch (App.tsx lines
253-257): the stored name if nonempty, otherwise the trimmed prompt reply;
the empty string when the prompt is cancelled or blank. `submitScore` runs
only when the result is nonempty (App.tsx line 258). -/
def resolveName (displayName : String) (prompted : Option String) : String :=
  if displayName ≠ "" then displayName
  else (match prompted with
    | some pr => if pr.trim ≠ "" then pr.trim else ""
    | none => "")

open scoped Classical

/-- `handleCanvasClick` (App.tsx lines 231-263). `raster` is the canvas
content, `prompted` the result of the `prompt` call (`none` = cancelled),
`(x, y)` the click coordinate relative to the canvas. A missing canvas or
2d context is not modelled (both always exist for the rendered component). -/
noncomputable def handleCanvasClick (raster : ℕ → ℕ → Option (ℕ × ℕ × ℕ))
    (prompted : Option String) (st : GameState) (x y : ℤ) : GameState :=
  match st.targetColor with
  | none => st
  | some target =>
    if st.gameOver = true ∨ st.showNextButton = true then st
    else
      let st1 := { st with clickPoint := some (x, y) }
      let p := readPixel 300 raster x y
      let clickedHex := rgbToHex p.1 p.2.1 p.2.2
      let sim := calculateSimilarity clickedHex target.hex
      if simPasses sim then
        { st1 with
          feedback := .correct sim
          score := st1.score + 1
          showNextButton := true }
      else
        let name := resolveName st.displayName prompted
        { st1 with
          feedback := .wrong sim
          gameOver := true
          displayName := if name = "" then st1.displayName else name
          submissions := if name = "" then st1.submissions
                         else st1.submissions ++ [(name, st1.score)]
          highScore := max st1.score st1.highScore }

/-! ### Arithmetic facts about the JavaScript primitives -/

theorem jsTrunc_of_nonneg (x : α) (hx : 0 ≤ x) : jsTrunc x = ⌊x⌋ := if_pos hx

theorem jsTrunc_eq_zero {x : α} (h1 : -1 < x) (h2 : x < 1) : jsTrunc x = 0 := by
  unfold jsTrunc
  split_ifs with h
  · exact Int.floor_eq_zero_iff.mpr ⟨h, h2⟩
  · push_neg at h
    have : ⌊-x⌋ = 0 := Int.floor_eq_zero_iff.mpr ⟨by linarith, by linarith⟩
    simp [this]

theorem jsTrunc_intCast {k : ℤ} (hk : 0 ≤ k) {x : α} (h1 : (k : α) ≤ x)
    (h2 : x < k + 1) : jsTrunc x = k := by
  have hk' : (0 : α) ≤ (k : α) := by exact_mod_cast hk
  rw [jsTrunc_of_nonneg _ (le_trans hk' h1)]
  exact Int.floor_eq_iff.mpr ⟨h1, h2⟩

theorem jsMod_eq_self {a b : α} (hb : 0 < b) (h1 : -b < a) (h2 : a < b) :
    jsMod a b = a := by
  have : jsTrunc (a / b) = 0 := by
    apply jsTrunc_eq_zero
    · rw [neg_lt, ← neg_div]
      exact (div_lt_one hb).mpr (by linarith)
    · exact (div_lt_one hb).mpr h2
  simp [jsMod, this]

theorem jsMod_nonneg_lt {a b : α} (ha : 0 ≤ a) (hb : 0 < b) :
    0 ≤ jsMod a b ∧ jsMod a b < b := by
  unfold jsMod
  rw [jsTrunc_of_nonneg _ (div_nonneg ha hb.le)]
  have hfl : (⌊a / b⌋ : α) * b ≤ a := by
    have h1 : (⌊a / b⌋ : α) ≤ a / b := Int.floor_le _
    calc (⌊a / b⌋ : α) * b ≤ a / b * b := mul_le_mul_of_nonneg_right h1 hb.le
    _ = a := div_mul_cancel₀ a hb.ne'
  have hfu : a < ((⌊a / b⌋ : α) + 1) * b := by
    have h2 : a / b < (⌊a / b⌋ : α) + 1 := Int.lt_floor_add_one _
    calc a = a / b * b := (div_mul_cancel₀ a hb.ne').symm
    _ < ((⌊a / b⌋ : α) + 1) * b := mul_lt_mul_of_pos_right h2 hb
  constructor
  · nlinarith
  · nlinarith

theorem jsRound_nonneg {x : α} (h : 0 ≤ x) : 0 ≤ jsRound x :=
  Int.le_floor.mpr (by push_cast; linarith)

theorem jsRound_le_255 {x : α} (h : x ≤ 255) : jsRound x ≤ 255 := by
  have : jsRound x < 256 := Int.floor_lt.mpr (by push_cast; linarith)
  omega

theorem abs_jsRound_sub (x : α) : |(jsRound x : α) - x| ≤ 1 / 2 := by
  have h1 := Int.floor_le (x + 1 / 2)
  have h2 := Int.lt_floor_add_one (x + 1 / 2)
  rw [abs_le]
  constructor <;> [skip; skip] <;> unfold jsRound <;> [linarith; linarith]

/-! ### Exact inversion of the HSL conversion at lightness 1/2 -/

theorem rgbToHsl_maxR {c u w m : α} (hc : 0 < c) (hm : m = (1 - c) / 2)
    (hu0 : 0 ≤ u) (huc : u ≤ c) (hw0 : 0 ≤ w) (hwc : w ≤ c) (huw : u = 0 ∨ w = 0) :
    rgbToHsl ((c + m) * 255) ((u + m) * 255) ((w + m) * 255) =
      (if (u - w) / c * 60 < 0 then (u - w) / c * 60 + 360 else (u - w) / c * 60,
       c, 1 / 2) := by
  have h255 : (255 : α) ≠ 0 := by norm_num
  simp only [rgbToHsl, mul_div_cancel_right₀ _ h255]
  rw [max_eq_left (by linarith : u + m ≤ c + m),
      max_eq_left (by linarith : w + m ≤ c + m),
      min_eq_right (by linarith : u + m ≤ c + m)]
  have hmin2 : min (u + m) (w + m) = m := by
    rcases huw with h | h
    · subst h; rw [zero_add]; exact min_eq_left (by linarith)
    · subst h; rw [zero_add]; exact min_eq_right (by linarith)
  rw [hmin2, show c + m - m = c from by ring, if_pos hc.ne',
      show c + m + m = 1 from by rw [hm]; ring, if_pos rfl,
      show u + m - (w + m) = u - w from by ring]
  have hb6 : (0 : α) < 6 := by norm_num
  have hdiv1 : (u - w) / c ≤ 1 := (div_le_one hc).mpr (by linarith)
  have hdivn : -1 ≤ (u - w) / c := by
    rw [neg_le, ← neg_div]
    exact le_trans ((div_le_one hc).mpr (by linarith)) le_rfl
  rw [jsMod_eq_self hb6 (by linarith) (by linarith)]
  norm_num



theorem rgbToHsl_maxG {c u w m : α} (hc : 0 < c) (hm : m = (1 - c) / 2)
    (hu0 : 0 ≤ u) (huc : u < c) (hw0 : 0 ≤ w) (hwc : w ≤ c) (huw : u = 0 ∨ w = 0) :
    rgbToHsl ((u + m) * 255) ((c + m) * 255) ((w + m) * 255) =
      (((w - u) / c + 2) * 60, c, 1 / 2) := by
  have h255 : (255 : α) ≠ 0 := by norm_num
  simp only [rgbToHsl, mul_div_cancel_right₀ _ h255]
  rw [max_eq_right (by linarith : u + m ≤ c + m),
      max_eq_left (by linarith : w + m ≤ c + m),
      min_eq_left (by linarith : u + m ≤ c + m)]
  have hmin2 : min (u + m) (w + m) = m := by
    rcases huw with h | h
    · subst h; rw [zero_add]; exact min_eq_left (by linarith)
    · subst h; rw [zero_add]; exact min_eq_right (by linarith)
  rw [hmin2, show c + m - m = c from by ring, if_pos hc.ne',
      show c + m + m = 1 from by rw [hm]; ring,
      if_neg (show ¬(c + m = u + m) from by intro heq; linarith),
      if_pos rfl,
      show w + m - (u + m) = w - u from by ring]
  have hge : -1 ≤ (w - u) / c := by
    rw [neg_le, ← neg_div]
    exact (div_le_one hc).mpr (by linarith)
  rw [if_neg (show ¬(((w - u) / c + 2) * 60 < 0) from not_lt.mpr (by nlinarith))]
  norm_num

theorem rgbToHsl_maxB {c u w m : α} (hc : 0 < c) (hm : m = (1 - c) / 2)
    (hu0 : 0 ≤ u) (huc : u < c) (hw0 : 0 ≤ w) (hwc : w < c) (huw : u = 0 ∨ w = 0) :
    rgbToHsl ((u + m) * 255) ((w + m) * 255) ((c + m) * 255) =
      (((u - w) / c + 4) * 60, c, 1 / 2) := by
  have h255 : (255 : α) ≠ 0 := by norm_num
  simp only [rgbToHsl, mul_div_cancel_right₀ _ h255]
  rw [max_eq_right (show max (u + m) (w + m) ≤ c + m from max_le (by linarith) (by linarith))]
  have hmin1 : min (u + m) (w + m) = m := by
    rcases huw with h | h
    · subst h; rw [zero_add]; exact min_eq_left (by linarith)
    · subst h; rw [zero_add]; exact min_eq_right (by linarith)
  rw [hmin1, min_eq_left (by linarith : m ≤ c + m),
      show c + m - m = c from by ring, if_pos hc.ne',
      show c + m + m = 1 from by rw [hm]; ring,
      if_neg (show ¬(c + m = u + m) from by intro heq; linarith),
      if_neg (show ¬(c + m = w + m) from by intro heq; linarith),
      if_pos rfl,
      show u + m - (w + m) = u - w from by ring]
  have hge : -1 ≤ (u - w) / c := by
    rw [neg_le, ← neg_div]
    exact (div_le_one hc).mpr (by linarith)
  rw [if_neg (show ¬(((u - w) / c + 4) * 60 < 0) from not_lt.mpr (by nlinarith))]
  norm_num


theorem abs_half : |2 * ((1:α) / 2) - 1| = 0 := by norm_num

theorem hslChannels_sector0 {h s : α} (hh0 : 0 ≤ h) (hh : h < 60) :
    hslChannels h s (1/2) =
      ((s + (1 - s) / 2) * 255, (s * (h / 60) + (1 - s) / 2) * 255,
       (0 + (1 - s) / 2) * 255) := by
  simp only [hslChannels]
  rw [jsMod_eq_self (by norm_num : (0:α) < 2) (by linarith [div_nonneg hh0 (by norm_num : (0:α) ≤ 60)])
        (by rw [div_lt_iff (by norm_num : (0:α) < 60)]; linarith),
      abs_half, if_pos ⟨hh0, hh⟩,
      abs_of_nonpos (show h / 60 - 1 ≤ 0 from by
        rw [sub_nonpos, div_le_one (by norm_num : (0:α) < 60)]; linarith)]
  simp only [Prod.mk.injEq]
  refine ⟨by ring, by ring, by ring⟩

theorem jsMod_two_shift {a : α} (k : ℤ) (hk : 0 ≤ k) (h1 : (k : α) * 2 ≤ a)
    (h2 : a < (k : α) * 2 + 2) : jsMod a 2 = a - 2 * k := by
  have ht : jsTrunc (a / 2) = k := by
    apply jsTrunc_intCast hk
    · rw [le_div_iff₀ (by norm_num : (0:α) < 2)]; linarith
    · rw [div_lt_iff₀ (by norm_num : (0:α) < 2)]; push_cast; linarith
  rw [jsMod, ht]

theorem hslChannels_sector1 {h s : α} (hh0 : 60 ≤ h) (hh : h < 120) :
    hslChannels h s (1/2) =
      ((s * (2 - h / 60) + (1 - s) / 2) * 255, (s + (1 - s) / 2) * 255,
       (0 + (1 - s) / 2) * 255) := by
  simp only [hslChannels]
  rw [jsMod_eq_self (by norm_num : (0:α) < 2) (by linarith [show (0:α) ≤ h / 60 from div_nonneg (by linarith) (by norm_num)])
        (by rw [div_lt_iff₀ (by norm_num : (0:α) < 60)]; linarith),
      abs_half,
      if_neg (show ¬(0 ≤ h ∧ h < 60) from by rintro ⟨-, hb⟩; linarith),
      if_pos hh,
      abs_of_nonneg (show (0:α) ≤ h / 60 - 1 from by
        rw [sub_nonneg, le_div_iff₀ (by norm_num : (0:α) < 60)]; linarith)]
  simp only [Prod.mk.injEq]
  refine ⟨by ring, by ring, by ring⟩

theorem hslChannels_sector2 {h s : α} (hh0 : 120 ≤ h) (hh : h < 180) :
    hslChannels h s (1/2) =
      ((0 + (1 - s) / 2) * 255, (s + (1 - s) / 2) * 255,
       (s * (h / 60 - 2) + (1 - s) / 2) * 255) := by
  simp only [hslChannels]
  rw [jsMod_two_shift 1 (by norm_num)
        (by push_cast; rw [le_div_iff₀ (by norm_num : (0:α) < 60)]; linarith)
        (by push_cast; rw [div_lt_iff₀ (by norm_num : (0:α) < 60)]; linarith),
      abs_half,
      if_neg (show ¬(0 ≤ h ∧ h < 60) from by rintro ⟨-, hb⟩; linarith),
      if_neg (show ¬(h < 120) from by linarith),
      if_pos hh,
      abs_of_nonpos (show h / 60 - 2 * (1:ℤ) - 1 ≤ 0 from by
        push_cast; rw [sub_sub, sub_nonpos, div_le_iff₀ (by norm_num : (0:α) < 60)]; linarith)]
  simp only [Prod.mk.injEq]
  refine ⟨by push_cast; ring, by push_cast; ring, by push_cast; ring⟩

theorem hslChannels_sector3 {h s : α} (hh0 : 180 ≤ h) (hh : h < 240) :
    hslChannels h s (1/2) =
      ((0 + (1 - s) / 2) * 255, (s * (4 - h / 60) + (1 - s) / 2) * 255,
       (s + (1 - s) / 2) * 255) := by
  simp only [hslChannels]
  rw [jsMod_two_shift 1 (by norm_num)
        (by push_cast; rw [le_div_iff₀ (by norm_num : (0:α) < 60)]; linarith)
        (by push_cast; rw [div_lt_iff₀ (by norm_num : (0:α) < 60)]; linarith),
      abs_half,
      if_neg (show ¬(0 ≤ h ∧ h < 60) from by rintro ⟨-, hb⟩; linarith),
      if_neg (show ¬(h < 120) from by linarith),
      if_neg (show ¬(h < 180) from by linarith),
      if_pos hh,
      abs_of_nonneg (show (0:α) ≤ h / 60 - 2 * (1:ℤ) - 1 from by
        push_cast; rw [sub_sub, sub_nonneg, le_div_iff₀ (by norm_num : (0:α) < 60)]; linarith)]
  simp only [Prod.mk.injEq]
  refine ⟨by push_cast; ring, by push_cast; ring, by push_cast; ring⟩

theorem hslChannels_sector4 {h s : α} (hh0 : 240 ≤ h) (hh : h < 300) :
    hslChannels h s (1/2) =
      ((s * (h / 60 - 4) + (1 - s) / 2) * 255, (0 + (1 - s) / 2) * 255,
       (s + (1 - s) / 2) * 255) := by
  simp only [hslChannels]
  rw [jsMod_two_shift 2 (by norm_num)
        (by push_cast; rw [le_div_iff₀ (by norm_num : (0:α) < 60)]; linarith)
        (by push_cast; rw [div_lt_iff₀ (by norm_num : (0:α) < 60)]; linarith),
      abs_half,
      if_neg (show ¬(0 ≤ h ∧ h < 60) from by rintro ⟨-, hb⟩; linarith),
      if_neg (show ¬(h < 120) from by linarith),
      if_neg (show ¬(h < 180) from by linarith),
      if_neg (show ¬(h < 240) from by linarith),
      if_pos hh,
      abs_of_nonpos (show h / 60 - 2 * (2:ℤ) - 1 ≤ 0 from by
        push_cast; rw [sub_sub, sub_nonpos, div_le_iff₀ (by norm_num : (0:α) < 60)]; linarith)]
  simp only [Prod.mk.injEq]
  refine ⟨by push_cast; ring, by push_cast; ring, by push_cast; ring⟩

theorem hslChannels_sector5 {h s : α} (hh0 : 300 ≤ h) (hh : h < 360) :
    hslChannels h s (1/2) =
      ((s + (1 - s) / 2) * 255, (0 + (1 - s) / 2) * 255,
       (s * (6 - h / 60) + (1 - s) / 2) * 255) := by
  simp only [hslChannels]
  rw [jsMod_two_shift 2 (by norm_num)
        (by push_cast; rw [le_div_iff₀ (by norm_num : (0:α) < 60)]; linarith)
        (by push_cast; rw [div_lt_iff₀ (by norm_num : (0:α) < 60)]; linarith),
      abs_half,
      if_neg (show ¬(0 ≤ h ∧ h < 60) from by rintro ⟨-, hb⟩; linarith),
      if_neg (show ¬(h < 120) from by linarith),
      if_neg (show ¬(h < 180) from by linarith),
      if_neg (show ¬(h < 240) from by linarith),
      if_neg (show ¬(h < 300) from by linarith),
      abs_of_nonneg (show (0:α) ≤ h / 60 - 2 * (2:ℤ) - 1 from by
        push_cast; rw [sub_sub, sub_nonneg, le_div_iff₀ (by norm_num : (0:α) < 60)]; linarith)]
  simp only [Prod.mk.injEq]
  refine ⟨by push_cast; ring, by push_cast; ring, by push_cast; ring⟩


theorem roundtrip_sector0 {h s : α} (hh0 : 0 ≤ h) (hh : h < 60) (hs0 : 0 < s) (hs1 : s ≤ 1) :
    rgbToHsl (hslChannels h s (1/2)).1 (hslChannels h s (1/2)).2.1
      (hslChannels h s (1/2)).2.2 = (h, s, 1/2) := by
  rw [hslChannels_sector0 hh0 hh]
  have h60 : h / 60 < 1 := (div_lt_one (by norm_num)).mpr hh
  rw [rgbToHsl_maxR hs0 rfl
      (mul_nonneg hs0.le (div_nonneg hh0 (by norm_num)))
      (by nlinarith) le_rfl hs0.le (Or.inr rfl)]
  rw [show (s * (h / 60) - 0) / s * 60 = h from by field_simp; ring]
  rw [if_neg (not_lt.mpr hh0)]

theorem roundtrip_sector1 {h s : α} (hh0 : 60 ≤ h) (hh : h < 120) (hs0 : 0 < s) (hs1 : s ≤ 1) :
    rgbToHsl (hslChannels h s (1/2)).1 (hslChannels h s (1/2)).2.1
      (hslChannels h s (1/2)).2.2 = (h, s, 1/2) := by
  rw [hslChannels_sector1 hh0 hh]
  rcases eq_or_lt_of_le hh0 with heq | hlt
  · subst heq
    rw [show s * (2 - (60:α) / 60) = s from by norm_num]
    rw [rgbToHsl_maxR hs0 rfl hs0.le le_rfl le_rfl hs0.le (Or.inr rfl)]
    rw [show (s - 0) / s * 60 = 60 from by field_simp]
    rw [if_neg (by norm_num : ¬((60:α) < 0))]
  · have h60 : 1 < h / 60 := (one_lt_div (by norm_num)).mpr hlt
    have h120 : h / 60 ≤ 2 := by rw [div_le_iff₀ (by norm_num : (0:α) < 60)]; linarith
    rw [rgbToHsl_maxG hs0 rfl
        (mul_nonneg hs0.le (by linarith)) (by nlinarith) le_rfl hs0.le (Or.inr rfl)]
    rw [show ((0 - s * (2 - h / 60)) / s + 2) * 60 = h from by field_simp; ring]

theorem roundtrip_sector2 {h s : α} (hh0 : 120 ≤ h) (hh : h < 180) (hs0 : 0 < s) (hs1 : s ≤ 1) :
    rgbToHsl (hslChannels h s (1/2)).1 (hslChannels h s (1/2)).2.1
      (hslChannels h s (1/2)).2.2 = (h, s, 1/2) := by
  rw [hslChannels_sector2 hh0 hh]
  have h60 : 2 ≤ h / 60 := by rw [le_div_iff₀ (by norm_num : (0:α) < 60)]; linarith
  have h180 : h / 60 < 3 := by rw [div_lt_iff₀ (by norm_num : (0:α) < 60)]; linarith
  rw [rgbToHsl_maxG hs0 rfl le_rfl hs0
      (mul_nonneg hs0.le (by linarith)) (by nlinarith) (Or.inl rfl)]
  rw [show ((s * (h / 60 - 2) - 0) / s + 2) * 60 = h from by field_simp; ring]

theorem roundtrip_sector3 {h s : α} (hh0 : 180 ≤ h) (hh : h < 240) (hs0 : 0 < s) (hs1 : s ≤ 1) :
    rgbToHsl (hslChannels h s (1/2)).1 (hslChannels h s (1/2)).2.1
      (hslChannels h s (1/2)).2.2 = (h, s, 1/2) := by
  rw [hslChannels_sector3 hh0 hh]
  rcases eq_or_lt_of_le hh0 with heq | hlt
  · subst heq
    rw [show s * (4 - (180:α) / 60) = s from by norm_num]
    rw [rgbToHsl_maxG hs0 rfl le_rfl hs0 hs0.le le_rfl (Or.inl rfl)]
    rw [show ((s - 0) / s + 2) * 60 = 180 from by field_simp; ring]
  · have h60 : 3 < h / 60 := by rw [lt_div_iff₀ (by norm_num : (0:α) < 60)]; linarith
    have h240 : h / 60 ≤ 4 := by rw [div_le_iff₀ (by norm_num : (0:α) < 60)]; linarith
    rw [rgbToHsl_maxB hs0 rfl le_rfl hs0
        (mul_nonneg hs0.le (by linarith)) (by nlinarith) (Or.inl rfl)]
    rw [show ((0 - s * (4 - h / 60)) / s + 4) * 60 = h from by field_simp; ring]

theorem roundtrip_sector4 {h s : α} (hh0 : 240 ≤ h) (hh : h < 300) (hs0 : 0 < s) (hs1 : s ≤ 1) :
    rgbToHsl (hslChannels h s (1/2)).1 (hslChannels h s (1/2)).2.1
      (hslChannels h s (1/2)).2.2 = (h, s, 1/2) := by
  rw [hslChannels_sector4 hh0 hh]
  have h60 : 4 ≤ h / 60 := by rw [le_div_iff₀ (by norm_num : (0:α) < 60)]; linarith
  have h300 : h / 60 < 5 := by rw [div_lt_iff₀ (by norm_num : (0:α) < 60)]; linarith
  rw [rgbToHsl_maxB hs0 rfl
      (mul_nonneg hs0.le (by linarith)) (by nlinarith) le_rfl hs0 (Or.inr rfl)]
  rw [show ((s * (h / 60 - 4) - 0) / s + 4) * 60 = h from by field_simp; ring]

theorem roundtrip_sector5 {h s : α} (hh0 : 300 ≤ h) (hh : h < 360) (hs0 : 0 < s) (hs1 : s ≤ 1) :
    rgbToHsl (hslChannels h s (1/2)).1 (hslChannels h s (1/2)).2.1
      (hslChannels h s (1/2)).2.2 = (h, s, 1/2) := by
  rw [hslChannels_sector5 hh0 hh]
  have h60 : 5 ≤ h / 60 := by rw [le_div_iff₀ (by norm_num : (0:α) < 60)]; linarith
  have h360 : h / 60 < 6 := by rw [div_lt_iff₀ (by norm_num : (0:α) < 60)]; linarith
  rw [rgbToHsl_maxR hs0 rfl le_rfl hs0.le
      (mul_nonneg hs0.le (by linarith)) (by nlinarith) (Or.inl rfl)]
  rw [show (0 - s * (6 - h / 60)) / s * 60 = h - 360 from by field_simp; ring]
  rw [if_pos (by linarith : h - 360 < 0)]
  norm_num

theorem rgbToHsl_hslChannels_exact {h s : α} (hh0 : 0 ≤ h) (hh : h < 360)
    (hs0 : 0 < s) (hs1 : s ≤ 1) :
    rgbToHsl (hslChannels h s (1/2)).1 (hslChannels h s (1/2)).2.1
      (hslChannels h s (1/2)).2.2 = (h, s, 1/2) := by
  rcases lt_or_le h 60 with c0 | c1
  · exact roundtrip_sector0 hh0 c0 hs0 hs1
  rcases lt_or_le h 120 with c2 | c3
  · exact roundtrip_sector1 c1 c2 hs0 hs1
  rcases lt_or_le h 180 with c4 | c5
  · exact roundtrip_sector2 c3 c4 hs0 hs1
  rcases lt_or_le h 240 with c6 | c7
  · exact roundtrip_sector3 c5 c6 hs0 hs1
  rcases lt_or_le h 300 with c8 | c9
  · exact roundtrip_sector4 c7 c8 hs0 hs1
  · exact roundtrip_sector5 c9 hh hs0 hs1

/-! ### Claim theorems -/

/-- **C3 counterexample**: `hslToRgb` does not normalize an out-of-range hue
modulo 360: at hue 420 (≡ 60 mod 360) it lands in the final sector and
returns magenta `(255, 0, 255)`, while the equivalent hue 60 returns yellow
`(255, 255, 0)`. -/
theorem claim_C3_counterexample :
    hslToRgb (420 : ℚ) 1 (1/2) ≠ hslToRgb (jsMod (420 : ℚ) 360) 1 (1/2) := by
  have e1 : hslToRgb (420 : ℚ) 1 (1/2) = (255, 0, 255) := by
    norm_num [hslToRgb, hslChannels, jsRound, jsMod, jsTrunc, Prod.ext_iff]
  have e2 : jsMod (420 : ℚ) 360 = 60 := by norm_num [jsMod, jsTrunc]
  have e3 : hslToRgb (60 : ℚ) 1 (1/2) = (255, 255, 0) := by
    norm_num [hslToRgb, hslChannels, jsRound, jsMod, jsTrunc, Prod.ext_iff]
  rw [e1, e2, e3]
  decide

/-- **C3 (amended)**: for hue already in `[0, 360)` the sector lookup agrees
with the hue reduced modulo 360 (the reduction is a no-op there); outside
that range no normalization happens (see the counterexample). -/
theorem claim_C3_amended (h s l : ℚ) (hh0 : 0 ≤ h) (hh : h < 360) :
    hslToRgb h s l = hslToRgb (jsMod h 360) s l := by
  rw [jsMod_eq_self (by norm_num : (0:ℚ) < 360) (by linarith) hh]

theorem claim_C3_witness :
    hslToRgb (90 : ℚ) 1 (1/2) = hslToRgb (jsMod (90 : ℚ) 360) 1 (1/2) :=
  claim_C3_amended 90 1 (1/2) (by norm_num) (by norm_num)

/-- **C2 counterexample**: reading the pixel at `x = 300` (one past the last
valid index of the 300×300 raster) does not signal an error: per the canvas
`getImageData` semantics it returns the default transparent black. -/
theorem claim_C2_counterexample :
    readPixel 300 (fun _ _ => none) 300 0 = (0, 0, 0) := by
  decide

/-- **C2 (amended)**: pixel read-back at any coordinate outside the raster
bounds returns transparent black `(0, 0, 0)` (the `getImageData` default);
no out-of-range error is signalled and the click handler proceeds with that
color. -/
theorem claim_C2_amended (raster : ℕ → ℕ → Option (ℕ × ℕ × ℕ)) (x y : ℤ)
    (hout : x < 0 ∨ 300 ≤ x ∨ y < 0 ∨ 300 ≤ y) :
    readPixel 300 raster x y = (0, 0, 0) := by
  unfold readPixel
  rw [if_neg]
  rintro ⟨h1, h2, h3, h4⟩
  push_cast at h2 h4
  rcases hout with h | h | h | h <;> omega

theorem claim_C2_witness :
    readPixel 300 (fun _ _ => some (1, 2, 3)) 301 5 = (0, 0, 0) :=
  claim_C2_amended _ 301 5 (Or.inr (Or.inl (by norm_num)))

/-- **C4 counterexample**: with rounding, the HSL round-trip does not recover
the hue within a few degrees near achromatic points: hue 90 at saturation
1/255 rounds to the RGB triple `(128, 128, 127)`, which converts back to
hue 60 — a 30° error. -/
theorem claim_C4_counterexample :
    hslToRgb (90 : ℚ) (1/255) (1/2) = (128, 128, 127) ∧
    rgbToHsl (128 : ℚ) 128 127 = (60, 1/255, 1/2) ∧
    |(rgbToHsl (128 : ℚ) 128 127).1 - 90| = 30 := by
  have e2 : rgbToHsl (128 : ℚ) 128 127 = (60, 1/255, 1/2) := by
    norm_num [rgbToHsl, jsMod, jsTrunc, Prod.ext_iff]
  refine ⟨?_, e2, ?_⟩
  · norm_num [hslToRgb, hslChannels, jsRound, jsMod, jsTrunc, Prod.ext_iff,
      abs_of_nonneg, abs_of_nonpos]
  · rw [e2]
    norm_num

/-- **C4 (amended)**: at lightness 0.5 the conversion pipeline is exactly
invertible before rounding — `rgbToHsl` applied to the unrounded channel
values of `hslToRgb` returns `(h, s, 1/2)` for every `h ∈ [0, 360)` and
`s ∈ (0, 1]` — and `Math.round` moves each channel by at most 1/2 (of 255).
The hue error after rounding is thus bounded only for saturations away
from 0, not globally (see the counterexample). -/
theorem claim_C4_amended (h s : ℚ) (hh0 : 0 ≤ h) (hh : h < 360)
    (hs0 : 0 < s) (hs1 : s ≤ 1) :
    rgbToHsl (hslChannels h s (1/2)).1 (hslChannels h s (1/2)).2.1
      (hslChannels h s (1/2)).2.2 = (h, s, 1/2) ∧
    |((hslToRgb h s (1/2)).1 : ℚ) - (hslChannels h s (1/2)).1| ≤ 1/2 ∧
    |((hslToRgb h s (1/2)).2.1 : ℚ) - (hslChannels h s (1/2)).2.1| ≤ 1/2 ∧
    |((hslToRgb h s (1/2)).2.2 : ℚ) - (hslChannels h s (1/2)).2.2| ≤ 1/2 :=
  ⟨rgbToHsl_hslChannels_exact hh0 hh hs0 hs1,
   abs_jsRound_sub _, abs_jsRound_sub _, abs_jsRound_sub _⟩

theorem claim_C4_witness :
    rgbToHsl (hslChannels (210 : ℚ) (1/2) (1/2)).1
      (hslChannels (210 : ℚ) (1/2) (1/2)).2.1
      (hslChannels (210 : ℚ) (1/2) (1/2)).2.2 = (210, 1/2, 1/2) :=
  (claim_C4_amended 210 (1/2) (by norm_num) (by norm_num) (by norm_num)
    (by norm_num)).1

/-- **C8**: a click arriving while the round is resolved — the game is over
or the next-round button is showing — leaves the whole state unchanged
(score, target color, feedback, click point, game-over flag, submissions)
and performs no leaderboard submission. -/
theorem claim_C8_resolved_clicks_ignored (raster : ℕ → ℕ → Option (ℕ × ℕ × ℕ))
    (prompted : Option String) (st : GameState) (x y : ℤ)
    (hres : st.gameOver = true ∨ st.showNextButton = true) :
    handleCanvasClick raster prompted st x y = st := by
  rcases htc : st.targetColor with _ | t
  · simp [handleCanvasClick, htc]
  · rcases hres with h | h <;> simp [handleCanvasClick, htc, h]

theorem claim_C8_witness :
    handleCanvasClick (fun _ _ => none) none
      ⟨5, 0, some ⟨"#FF0000", "t"⟩, .empty, true, false, "p", none, []⟩ 1 2 =
      ⟨5, 0, some ⟨"#FF0000", "t"⟩, .empty, true, false, "p", none, []⟩ :=
  claim_C8_resolved_clicks_ignored _ none _ 1 2 (Or.inl rfl)

theorem hue_wrap_bounds {t : α} (h1 : -360 < t) (h2 : t < 360) :
    0 ≤ (if t < 0 then t + 360 else t) ∧ (if t < 0 then t + 360 else t) < 360 := by
  split_ifs with h
  · exact ⟨by linarith, by linarith⟩
  · exact ⟨not_lt.mp h, h2⟩

theorem rgbToHsl_range {r g b : α} (hr0 : 0 ≤ r) (hr : r ≤ 255) (hg0 : 0 ≤ g)
    (hg : g ≤ 255) (hb0 : 0 ≤ b) (hbb : b ≤ 255) :
    (0 ≤ (rgbToHsl r g b).1 ∧ (rgbToHsl r g b).1 < 360) ∧
    (0 ≤ (rgbToHsl r g b).2.1 ∧ (rgbToHsl r g b).2.1 ≤ 1) ∧
    (0 ≤ (rgbToHsl r g b).2.2 ∧ (rgbToHsl r g b).2.2 ≤ 1) ∧
    (max (max (r / 255) (g / 255)) (b / 255) = min (min (r / 255) (g / 255)) (b / 255) →
      (rgbToHsl r g b).1 = 0 ∧ (rgbToHsl r g b).2.1 = 0) ∧
    (max (max (r / 255) (g / 255)) (b / 255) ≠ min (min (r / 255) (g / 255)) (b / 255) →
      1 - |2 * ((max (max (r / 255) (g / 255)) (b / 255) +
        min (min (r / 255) (g / 255)) (b / 255)) / 2) - 1| ≠ 0) := by
  simp only [rgbToHsl]
  set rp := r / 255 with hrpdef
  set gp := g / 255 with hgpdef
  set bp := b / 255 with hbpdef
  set mx := max (max rp gp) bp with hmxdef
  set mn := min (min rp gp) bp with hmndef
  have hrp0 : 0 ≤ rp := by rw [hrpdef]; positivity
  have hgp0 : 0 ≤ gp := by rw [hgpdef]; positivity
  have hbp0 : 0 ≤ bp := by rw [hbpdef]; positivity
  have hrp1 : rp ≤ 1 := by rw [hrpdef, div_le_one (by norm_num : (0:α) < 255)]; linarith
  have hgp1 : gp ≤ 1 := by rw [hgpdef, div_le_one (by norm_num : (0:α) < 255)]; linarith
  have hbp1 : bp ≤ 1 := by rw [hbpdef, div_le_one (by norm_num : (0:α) < 255)]; linarith
  have hmx1 : mx ≤ 1 := max_le (max_le hrp1 hgp1) hbp1
  have hmn0 : 0 ≤ mn := le_min (le_min hrp0 hgp0) hbp0
  have hrmx : rp ≤ mx := le_trans (le_max_left rp gp) (le_max_left _ bp)
  have hgmx : gp ≤ mx := le_trans (le_max_right rp gp) (le_max_left _ bp)
  have hbmx : bp ≤ mx := le_max_right _ bp
  have hmnr : mn ≤ rp := le_trans (min_le_left _ bp) (min_le_left rp gp)
  have hmng : mn ≤ gp := le_trans (min_le_left _ bp) (min_le_right rp gp)
  have hmnb : mn ≤ bp := min_le_right _ bp
  have hmnmx : mn ≤ mx := le_trans hmnr hrmx
  clear hrpdef hgpdef hbpdef
  clear_value mn mx bp gp rp
  by_cases hd : mx - mn ≠ 0
  · have hlt : mn < mx := lt_of_le_of_ne hmnmx (Ne.symm (sub_ne_zero.mp hd))
    have hD : 0 < mx - mn := sub_pos.mpr hlt
    rw [if_pos hd]
    dsimp only
    have h2l : 2 * ((mx + mn) / 2) - 1 = mx + mn - 1 := by ring
    have habs : |mx + mn - 1| < 1 := abs_lt.mpr ⟨by linarith, by linarith⟩
    have hE : 0 < 1 - |2 * ((mx + mn) / 2) - 1| := by rw [h2l]; linarith
    have hs1 : (mx - mn) / (1 - |2 * ((mx + mn) / 2) - 1|) ≤ 1 := by
      rw [div_le_one hE, h2l]
      rcases le_or_lt 1 (mx + mn) with hc | hc
      · rw [abs_of_nonneg (by linarith)]; linarith
      · rw [abs_of_neg (by linarith)]; linarith
    set sw := (if mx = rp then jsMod ((gp - bp) / (mx - mn)) 6
      else if mx = gp then (bp - rp) / (mx - mn) + 2
      else if mx = bp then (rp - gp) / (mx - mn) + 4 else 0) with hswdef
    have hsw : -6 < sw ∧ sw < 6 := by
      rw [hswdef]
      by_cases h1 : mx = rp
      · rw [if_pos h1]
        have hv1 : (gp - bp) / (mx - mn) ≤ 1 := (div_le_one hD).mpr (by linarith)
        have hv2 : -1 ≤ (gp - bp) / (mx - mn) := by
          rw [neg_le, ← neg_div]
          exact (div_le_one hD).mpr (by linarith)
        rw [jsMod_eq_self (by norm_num : (0:α) < 6) (by linarith) (by linarith)]
        exact ⟨by linarith, by linarith⟩
      · rw [if_neg h1]
        by_cases h2 : mx = gp
        · rw [if_pos h2]
          have hv1 : (bp - rp) / (mx - mn) ≤ 1 := (div_le_one hD).mpr (by linarith)
          have hv2 : -1 ≤ (bp - rp) / (mx - mn) := by
            rw [neg_le, ← neg_div]
            exact (div_le_one hD).mpr (by linarith)
          exact ⟨by linarith, by linarith⟩
        · rw [if_neg h2]
          by_cases h3 : mx = bp
          · rw [if_pos h3]
            have hv1 : (rp - gp) / (mx - mn) ≤ 1 := (div_le_one hD).mpr (by linarith)
            have hv2 : -1 ≤ (rp - gp) / (mx - mn) := by
              rw [neg_le, ← neg_div]
              exact (div_le_one hD).mpr (by linarith)
            exact ⟨by linarith, by linarith⟩
          · exfalso
            rcases max_choice (max rp gp) bp with hmb | hmb
            · rcases max_choice rp gp with hab | hab
              · exact h1 (hmxdef.trans (hmb.trans hab))
              · exact h2 (hmxdef.trans (hmb.trans hab))
            · exact h3 (hmxdef.trans hmb)
    clear hswdef
    clear_value sw
    have hwrap := hue_wrap_bounds (t := sw * 60) (by linarith [hsw.1]) (by linarith [hsw.2])
    exact ⟨hwrap, ⟨div_nonneg hD.le hE.le, hs1⟩, ⟨by linarith, by linarith⟩,
        fun he => absurd (by rw [he, sub_self]) hd, fun _ => hE.ne'⟩
  · rw [if_neg hd]
    dsimp only
    push_neg at hd
    refine ⟨⟨le_rfl, by norm_num⟩, ⟨le_rfl, by norm_num⟩,
        ⟨by linarith, by linarith⟩, fun _ => ⟨rfl, rfl⟩,
        fun hne => absurd (sub_eq_zero.mp hd) hne⟩


theorem hslChannels_range {h s : α} (hh0 : 0 ≤ h) (hs0 : 0 ≤ s) (hs1 : s ≤ 1) :
    (0 ≤ (hslChannels h s (1/2)).1 ∧ (hslChannels h s (1/2)).1 ≤ 255) ∧
    (0 ≤ (hslChannels h s (1/2)).2.1 ∧ (hslChannels h s (1/2)).2.1 ≤ 255) ∧
    (0 ≤ (hslChannels h s (1/2)).2.2 ∧ (hslChannels h s (1/2)).2.2 ≤ 255) := by
  simp only [hslChannels, abs_half]
  have hjm := jsMod_nonneg_lt (div_nonneg hh0 (by norm_num : (0:α) ≤ 60))
    (by norm_num : (0:α) < 2)
  set A := |jsMod (h / 60) 2 - 1| with hAdef
  have hA0 : 0 ≤ A := abs_nonneg _
  have hA1 : A ≤ 1 := by
    rw [hAdef]
    rw [abs_le]
    exact ⟨by linarith [hjm.1], by linarith [hjm.2]⟩
  clear hAdef
  clear_value A
  have hsA0 : 0 ≤ s * A := mul_nonneg hs0 hA0
  have hsA1 : s * A ≤ s := by
    calc s * A ≤ s * 1 := mul_le_mul_of_nonneg_left hA1 hs0
    _ = s := mul_one s
  split_ifs <;>
    exact ⟨⟨by linarith, by linarith⟩, ⟨by linarith, by linarith⟩,
      by linarith, by linarith⟩

theorem hslToRgb_range {h s : α} (hh0 : 0 ≤ h) (hs0 : 0 ≤ s) (hs1 : s ≤ 1) :
    (0 ≤ (hslToRgb h s (1/2)).1 ∧ (hslToRgb h s (1/2)).1 ≤ 255) ∧
    (0 ≤ (hslToRgb h s (1/2)).2.1 ∧ (hslToRgb h s (1/2)).2.1 ≤ 255) ∧
    (0 ≤ (hslToRgb h s (1/2)).2.2 ∧ (hslToRgb h s (1/2)).2.2 ≤ 255) := by
  obtain ⟨⟨h11, h12⟩, ⟨h21, h22⟩, h31, h32⟩ := hslChannels_range hh0 hs0 hs1
  exact ⟨⟨jsRound_nonneg h11, jsRound_le_255 h12⟩,
    ⟨jsRound_nonneg h21, jsRound_le_255 h22⟩,
    ⟨jsRound_nonneg h31, jsRound_le_255 h32⟩⟩


/-- **C6**: in the 300×300 disc render (radius 150), every pixel farther
than 150 from the center is left unpainted, and every pixel within
distance 150 is painted with a valid RGB triple (each channel an integer
in `[0, 255]`). -/
theorem claim_C6_disc_render (x y : ℕ) (hx : x < 300) (hy : y < 300) :
    (Real.sqrt (((x:ℝ) - 150) ^ 2 + ((y:ℝ) - 150) ^ 2) > 150 →
      wheelPixel 300 x y = none) ∧
    (Real.sqrt (((x:ℝ) - 150) ^ 2 + ((y:ℝ) - 150) ^ 2) ≤ 150 →
      ∃ p : ℤ × ℤ × ℤ, wheelPixel 300 x y = some p ∧
        0 ≤ p.1 ∧ p.1 ≤ 255 ∧ 0 ≤ p.2.1 ∧ p.2.1 ≤ 255 ∧
        0 ≤ p.2.2 ∧ p.2.2 ≤ 255) := by
  have hrad : ((300:ℕ):ℝ) / 2 = 150 := by norm_num
  constructor
  · intro hgt
    simp only [wheelPixel, hrad]
    rw [if_pos hgt]
  · intro hle
    simp only [wheelPixel, hrad]
    rw [if_neg (not_lt.mpr hle)]
    have hpi : (0:ℝ) < Real.pi := Real.pi_pos
    have harg1 := Complex.arg_le_pi (⟨(x:ℝ) - 150, (y:ℝ) - 150⟩ : ℂ)
    have harg2 := Complex.neg_pi_lt_arg (⟨(x:ℝ) - 150, (y:ℝ) - 150⟩ : ℂ)
    have hang1 : Complex.arg ⟨(x:ℝ) - 150, (y:ℝ) - 150⟩ * 180 / Real.pi ≤ 180 := by
      rw [div_le_iff₀ hpi]
      nlinarith
    have hang2 : -180 < Complex.arg ⟨(x:ℝ) - 150, (y:ℝ) - 150⟩ * 180 / Real.pi := by
      rw [lt_div_iff₀ hpi]
      nlinarith
    have hhue := jsMod_nonneg_lt
      (a := Complex.arg ⟨(x:ℝ) - 150, (y:ℝ) - 150⟩ * 180 / Real.pi + 360)
      (b := 360) (by linarith) (by norm_num)
    have hsat0 : 0 ≤ Real.sqrt (((x:ℝ) - 150) ^ 2 + ((y:ℝ) - 150) ^ 2) / 150 :=
      div_nonneg (Real.sqrt_nonneg _) (by norm_num)
    have hsat1 : Real.sqrt (((x:ℝ) - 150) ^ 2 + ((y:ℝ) - 150) ^ 2) / 150 ≤ 1 :=
      (div_le_one (by norm_num)).mpr hle
    obtain ⟨⟨h11, h12⟩, ⟨h21, h22⟩, h31, h32⟩ := hslToRgb_range hhue.1 hsat0 hsat1
    exact ⟨_, rfl, h11, h12, h21, h22, h31, h32⟩


theorem sq_sum_three_max_iff (u v w : ℤ) (hu : |u| ≤ 255) (hv : |v| ≤ 255)
    (hw : |w| ≤ 255) :
    u ^ 2 + v ^ 2 + w ^ 2 = 3 * 255 ^ 2 ↔ |u| = 255 ∧ |v| = 255 ∧ |w| = 255 := by
  obtain ⟨hu1, hu2⟩ := abs_le.mp hu
  obtain ⟨hv1, hv2⟩ := abs_le.mp hv
  obtain ⟨hw1, hw2⟩ := abs_le.mp hw
  constructor
  · intro hsum
    have hub : u ^ 2 ≤ 255 ^ 2 := sq_le_sq' hu1 hu2
    have hvb : v ^ 2 ≤ 255 ^ 2 := sq_le_sq' hv1 hv2
    have hwb : w ^ 2 ≤ 255 ^ 2 := sq_le_sq' hw1 hw2
    have hue : u ^ 2 = 255 ^ 2 := by linarith
    have hve : v ^ 2 = 255 ^ 2 := by linarith
    have hwe : w ^ 2 = 255 ^ 2 := by linarith
    refine ⟨?_, ?_, ?_⟩ <;> rw [abs_eq (by norm_num : (0:ℤ) ≤ 255)]
    · rcases mul_eq_zero.mp (show (u - 255) * (u + 255) = 0 by linear_combination hue) with h | h
      · exact Or.inl (by linarith)
      · exact Or.inr (by linarith)
    · rcases mul_eq_zero.mp (show (v - 255) * (v + 255) = 0 by linear_combination hve) with h | h
      · exact Or.inl (by linarith)
      · exact Or.inr (by linarith)
    · rcases mul_eq_zero.mp (show (w - 255) * (w + 255) = 0 by linear_combination hwe) with h | h
      · exact Or.inl (by linarith)
      · exact Or.inr (by linarith)
  · rintro ⟨h1, h2, h3⟩
    have e1 : u ^ 2 = 255 ^ 2 := by rw [← sq_abs, h1]
    have e2 : v ^ 2 = 255 ^ 2 := by rw [← sq_abs, h2]
    have e3 : w ^ 2 = 255 ^ 2 := by rw [← sq_abs, h3]
    linarith

/-- **C5**: for channels in `[0, 255]`, the similarity is 100 iff the two
colors are channel-identical, and 0 iff they are diagonally opposite
corners of the RGB cube (each channel differing by exactly 255); in
particular black vs. white scores 0 (see the witness). -/
theorem claim_C5_similarity_extremes (r1 g1 b1 r2 g2 b2 : ℤ)
    (hr1 : 0 ≤ r1) (hr1' : r1 ≤ 255) (hg1 : 0 ≤ g1) (hg1' : g1 ≤ 255)
    (hb1 : 0 ≤ b1) (hb1' : b1 ≤ 255) (hr2 : 0 ≤ r2) (hr2' : r2 ≤ 255)
    (hg2 : 0 ≤ g2) (hg2' : g2 ≤ 255) (hb2 : 0 ≤ b2) (hb2' : b2 ≤ 255) :
    (similarityOfChannels r1 g1 b1 r2 g2 b2 = 100 ↔
      r1 = r2 ∧ g1 = g2 ∧ b1 = b2) ∧
    (similarityOfChannels r1 g1 b1 r2 g2 b2 = 0 ↔
      |r1 - r2| = 255 ∧ |g1 - g2| = 255 ∧ |b1 - b2| = 255) := by
  have hD0 : (0:ℝ) ≤ ((r1:ℝ) - r2) ^ 2 + ((g1:ℝ) - g2) ^ 2 + ((b1:ℝ) - b2) ^ 2 := by
    positivity
  have hN : Real.sqrt (3 * 255 ^ 2) ≠ 0 := by positivity
  unfold similarityOfChannels
  constructor
  · constructor
    · intro hs
      have hq : Real.sqrt (((r1:ℝ) - r2) ^ 2 + ((g1:ℝ) - g2) ^ 2 + ((b1:ℝ) - b2) ^ 2) /
          Real.sqrt (3 * 255 ^ 2) = 0 := by linarith
      have hz := (Real.sqrt_eq_zero hD0).mp ((div_eq_zero_iff.mp hq).resolve_right hN)
      have e1 : ((r1:ℝ) - r2) ^ 2 = 0 := by nlinarith [sq_nonneg ((r1:ℝ) - r2), sq_nonneg ((g1:ℝ) - g2), sq_nonneg ((b1:ℝ) - b2)]
      have e2 : ((g1:ℝ) - g2) ^ 2 = 0 := by nlinarith [sq_nonneg ((r1:ℝ) - r2), sq_nonneg ((g1:ℝ) - g2), sq_nonneg ((b1:ℝ) - b2)]
      have e3 : ((b1:ℝ) - b2) ^ 2 = 0 := by nlinarith [sq_nonneg ((r1:ℝ) - r2), sq_nonneg ((g1:ℝ) - g2), sq_nonneg ((b1:ℝ) - b2)]
      refine ⟨?_, ?_, ?_⟩ <;> [have := sub_eq_zero.mp (pow_eq_zero_iff (n := 2) (by norm_num) |>.mp e1); have := sub_eq_zero.mp (pow_eq_zero_iff (n := 2) (by norm_num) |>.mp e2); have := sub_eq_zero.mp (pow_eq_zero_iff (n := 2) (by norm_num) |>.mp e3)] <;> exact_mod_cast this
    · rintro ⟨e1, e2, e3⟩
      subst e1; subst e2; subst e3
      simp [Real.sqrt_zero]
  · constructor
    · intro hs
      have hq : Real.sqrt (((r1:ℝ) - r2) ^ 2 + ((g1:ℝ) - g2) ^ 2 + ((b1:ℝ) - b2) ^ 2) /
          Real.sqrt (3 * 255 ^ 2) = 1 := by linarith
      have heq : Real.sqrt (((r1:ℝ) - r2) ^ 2 + ((g1:ℝ) - g2) ^ 2 + ((b1:ℝ) - b2) ^ 2) =
          Real.sqrt (3 * 255 ^ 2) := by
        rw [div_eq_one_iff_eq hN] at hq
        exact hq
      have hDeq : ((r1:ℝ) - r2) ^ 2 + ((g1:ℝ) - g2) ^ 2 + ((b1:ℝ) - b2) ^ 2 =
          3 * 255 ^ 2 :=
        (Real.sqrt_inj hD0 (by norm_num)).mp heq
      have hDint : (r1 - r2) ^ 2 + (g1 - g2) ^ 2 + (b1 - b2) ^ 2 = 3 * 255 ^ 2 := by
        exact_mod_cast hDeq
      exact (sq_sum_three_max_iff _ _ _
        (abs_le.mpr ⟨by linarith, by linarith⟩)
        (abs_le.mpr ⟨by linarith, by linarith⟩)
        (abs_le.mpr ⟨by linarith, by linarith⟩)).mp hDint
    · intro habs
      have hDint : (r1 - r2) ^ 2 + (g1 - g2) ^ 2 + (b1 - b2) ^ 2 = 3 * 255 ^ 2 :=
        (sq_sum_three_max_iff _ _ _
          (abs_le.mpr ⟨by linarith, by linarith⟩)
          (abs_le.mpr ⟨by linarith, by linarith⟩)
          (abs_le.mpr ⟨by linarith, by linarith⟩)).mpr habs
      have hDeq : ((r1:ℝ) - r2) ^ 2 + ((g1:ℝ) - g2) ^ 2 + ((b1:ℝ) - b2) ^ 2 =
          3 * 255 ^ 2 := by exact_mod_cast hDint
      rw [hDeq, div_self hN]
      ring


theorem rgbToHex_eq_byteChars (r g b : ℕ) :
    rgbToHex r g b = String.mk ('#' :: (byteChars r ++ byteChars g ++ byteChars b)) := by
  simp [rgbToHex, byteChars, List.map_append]

set_option maxRecDepth 4000 in
theorem byteChars_length : ∀ v : ℕ, v < 256 → (byteChars v).length = 2 := by decide

set_option maxRecDepth 4000 in
theorem byteChars_upperHex : ∀ v : ℕ, v < 256 →
    (byteChars v).all isUpperHexDigit = true := by decide

set_option maxRecDepth 8000 in
theorem byteChars_parse : ∀ v : ℕ, v < 256 →
    parseIntHex (String.mk (byteChars v)) = some v := by decide

/-- **C10**: `rgbToHex` produces `#` followed by six uppercase hexadecimal
digits, and the slice-based parsing inside `calculateSimilarity` recovers
exactly the original channels, so similarity over the hex encodings equals
the Euclidean-distance similarity over the triples. -/
theorem claim_C10_hex_roundtrip (r g b r' g' b' : ℕ)
    (hr : r ≤ 255) (hg : g ≤ 255) (hb : b ≤ 255)
    (hr' : r' ≤ 255) (hg' : g' ≤ 255) (hb' : b' ≤ 255) :
    (∃ d1 d2 d3 d4 d5 d6 : Char,
      (rgbToHex r g b).toList = ['#', d1, d2, d3, d4, d5, d6] ∧
      (isUpperHexDigit d1 && isUpperHexDigit d2 && isUpperHexDigit d3 &&
       isUpperHexDigit d4 && isUpperHexDigit d5 && isUpperHexDigit d6) = true) ∧
    calculateSimilarity (rgbToHex r g b) (rgbToHex r' g' b') =
      some (similarityOfChannels r g b r' g' b') := by
  obtain ⟨a1, a2, ha⟩ := List.length_eq_two.mp (byteChars_length r (by omega))
  obtain ⟨a3, a4, hc⟩ := List.length_eq_two.mp (byteChars_length g (by omega))
  obtain ⟨a5, a6, he⟩ := List.length_eq_two.mp (byteChars_length b (by omega))
  obtain ⟨c1, c2, hb1⟩ := List.length_eq_two.mp (byteChars_length r' (by omega))
  obtain ⟨c3, c4, hb2⟩ := List.length_eq_two.mp (byteChars_length g' (by omega))
  obtain ⟨c5, c6, hb3⟩ := List.length_eq_two.mp (byteChars_length b' (by omega))
  have hx1 : rgbToHex r g b = String.mk ['#', a1, a2, a3, a4, a5, a6] := by
    rw [rgbToHex_eq_byteChars, ha, hc, he]
    rfl
  have hx2 : rgbToHex r' g' b' = String.mk ['#', c1, c2, c3, c4, c5, c6] := by
    rw [rgbToHex_eq_byteChars, hb1, hb2, hb3]
    rfl
  constructor
  · refine ⟨a1, a2, a3, a4, a5, a6, by rw [hx1]; rfl, ?_⟩
    have hu1 := byteChars_upperHex r (by omega)
    have hu2 := byteChars_upperHex g (by omega)
    have hu3 := byteChars_upperHex b (by omega)
    rw [ha] at hu1
    rw [hc] at hu2
    rw [he] at hu3
    simp only [List.all_cons, List.all_nil, Bool.and_true, Bool.and_eq_true]
      at hu1 hu2 hu3
    simp [hu1.1, hu1.2, hu2.1, hu2.2, hu3.1, hu3.2]
  · have hp1 : parseIntHex (jsSlice (rgbToHex r g b) 1 3) = some r := by
      rw [hx1]
      show parseIntHex (String.mk [a1, a2]) = some r
      rw [show String.mk [a1, a2] = String.mk (byteChars r) from by rw [ha]]
      exact byteChars_parse r (by omega)
    have hp2 : parseIntHex (jsSlice (rgbToHex r g b) 3 5) = some g := by
      rw [hx1]
      show parseIntHex (String.mk [a3, a4]) = some g
      rw [show String.mk [a3, a4] = String.mk (byteChars g) from by rw [hc]]
      exact byteChars_parse g (by omega)
    have hp3 : parseIntHex (jsSlice (rgbToHex r g b) 5 7) = some b := by
      rw [hx1]
      show parseIntHex (String.mk [a5, a6]) = some b
      rw [show String.mk [a5, a6] = String.mk (byteChars b) from by rw [he]]
      exact byteChars_parse b (by omega)
    have hp4 : parseIntHex (jsSlice (rgbToHex r' g' b') 1 3) = some r' := by
      rw [hx2]
      show parseIntHex (String.mk [c1, c2]) = some r'
      rw [show String.mk [c1, c2] = String.mk (byteChars r') from by rw [hb1]]
      exact byteChars_parse r' (by omega)
    have hp5 : parseIntHex (jsSlice (rgbToHex r' g' b') 3 5) = some g' := by
      rw [hx2]
      show parseIntHex (String.mk [c3, c4]) = some g'
      rw [show String.mk [c3, c4] = String.mk (byteChars g') from by rw [hb2]]
      exact byteChars_parse g' (by omega)
    have hp6 : parseIntHex (jsSlice (rgbToHex r' g' b') 5 7) = some b' := by
      rw [hx2]
      show parseIntHex (String.mk [c5, c6]) = some b'
      rw [show String.mk [c5, c6] = String.mk (byteChars b') from by rw [hb3]]
      exact byteChars_parse b' (by omega)
    simp only [calculateSimilarity, hp1, hp2, hp3, hp4, hp5, hp6]


/-- **C7 counterexample**: the malformed string `#1G0000` (G is not a hex
digit) is not rejected: `parseInt` partially recovers the `1G` slice as 1
and the similarity computation produces a value — no format error. -/
theorem claim_C7_counterexample :
    specWellFormedHex "#1G0000" = false ∧
    calculateSimilarity "#1G0000" "#000000" =
      some (similarityOfChannels 1 0 0 0 0 0) := by
  constructor
  · decide
  · have hp1 : parseIntHex (jsSlice "#1G0000" 1 3) = some 1 := by decide
    have hp2 : parseIntHex (jsSlice "#1G0000" 3 5) = some 0 := by decide
    have hp3 : parseIntHex (jsSlice "#1G0000" 5 7) = some 0 := by decide
    have hp4 : parseIntHex (jsSlice "#000000" 1 3) = some 0 := by decide
    have hp5 : parseIntHex (jsSlice "#000000" 3 5) = some 0 := by decide
    have hp6 : parseIntHex (jsSlice "#000000" 5 7) = some 0 := by decide
    simp only [calculateSimilarity, hp1, hp2, hp3, hp4, hp5, hp6]
    norm_num

/-- **C7 (amended)**: malformed color strings are not rejected with a
format error: a slice with a leading hex digit is partially parsed
(`#1G2345` yields a similarity value), and a slice with no leading hex
digit yields JS `NaN` (modelled `none`), still without any error signal. -/
theorem claim_C7_amended :
    specWellFormedHex "#1G2345" = false ∧
    (calculateSimilarity "#1G2345" "#000000").isSome = true ∧
    specWellFormedHex "#GG2345" = false ∧
    calculateSimilarity "#GG2345" "#000000" = none := by
  have hq1 : parseIntHex (jsSlice "#1G2345" 1 3) = some 1 := by decide
  have hq2 : parseIntHex (jsSlice "#1G2345" 3 5) = some 35 := by decide
  have hq3 : parseIntHex (jsSlice "#1G2345" 5 7) = some 69 := by decide
  have hp4 : parseIntHex (jsSlice "#000000" 1 3) = some 0 := by decide
  have hp5 : parseIntHex (jsSlice "#000000" 3 5) = some 0 := by decide
  have hp6 : parseIntHex (jsSlice "#000000" 5 7) = some 0 := by decide
  have hg1 : parseIntHex (jsSlice "#GG2345" 1 3) = none := by decide
  have hg2 : parseIntHex (jsSlice "#GG2345" 3 5) = some 35 := by decide
  have hg3 : parseIntHex (jsSlice "#GG2345" 5 7) = some 69 := by decide
  refine ⟨by decide, ?_, by decide, ?_⟩
  · simp only [calculateSimilarity, hq1, hq2, hq3, hp4, hp5, hp6, Option.isSome_some]
  · simp only [calculateSimilarity, hg1, hg2, hg3, hp4, hp5, hp6]


/-- General resolution behavior of `handleCanvasClick` for a click landing
while a round is in progress: the success branch, and the failure branch
with the submission conditional on the resolved display name. -/
theorem handleCanvasClick_resolution (raster : ℕ → ℕ → Option (ℕ × ℕ × ℕ))
    (prompted : Option String) (st : GameState) (x y : ℤ) (t : Color)
    (hgo : st.gameOver = false) (hnb : st.showNextButton = false)
    (htc : st.targetColor = some t) (v : ℝ)
    (hsim : calculateSimilarity
        (rgbToHex (readPixel 300 raster x y).1 (readPixel 300 raster x y).2.1
          (readPixel 300 raster x y).2.2) t.hex = some v) :
    (90 ≤ v →
      (handleCanvasClick raster prompted st x y).score = st.score + 1 ∧
      (handleCanvasClick raster prompted st x y).submissions = st.submissions ∧
      (handleCanvasClick raster prompted st x y).gameOver = false) ∧
    (v < 90 →
      (handleCanvasClick raster prompted st x y).gameOver = true ∧
      (handleCanvasClick raster prompted st x y).score = st.score ∧
      (resolveName st.displayName prompted = "" →
        (handleCanvasClick raster prompted st x y).submissions = st.submissions) ∧
      (resolveName st.displayName prompted ≠ "" →
        (handleCanvasClick raster prompted st x y).submissions =
          st.submissions ++ [(resolveName st.displayName prompted, st.score)])) := by
  have hguard : ¬(st.gameOver = true ∨ st.showNextButton = true) := by
    rw [hgo, hnb]
    simp
  constructor
  · intro h90
    have hp : simPasses (calculateSimilarity
        (rgbToHex (readPixel 300 raster x y).1 (readPixel 300 raster x y).2.1
          (readPixel 300 raster x y).2.2) t.hex) := ⟨v, hsim, h90⟩
    simp only [handleCanvasClick, htc]
    rw [if_neg hguard, if_pos hp]
    exact ⟨rfl, rfl, hgo⟩
  · intro hlt
    have hnp : ¬ simPasses (calculateSimilarity
        (rgbToHex (readPixel 300 raster x y).1 (readPixel 300 raster x y).2.1
          (readPixel 300 raster x y).2.2) t.hex) := by
      rintro ⟨w, hw, h90⟩
      rw [hsim] at hw
      injection hw with hw'
      subst hw'
      linarith
    simp only [handleCanvasClick, htc]
    rw [if_neg hguard, if_neg hnp]
    refine ⟨rfl, rfl, fun h => ?_, fun h => ?_⟩
    · simp only [if_pos h]
    · simp only [if_neg h]

/-- **C1 counterexample**: the original claim fails on a first-time player:
with an empty stored display name and a cancelled prompt, a click whose
similarity is below 90 (here a white pixel against a black target,
similarity 0) transitions to game over but performs NO leaderboard
submission — refuting "a score submission to the leaderboard is
triggered" on every failing resolution. -/
theorem claim_C1_counterexample :
    (handleCanvasClick (fun _ _ => some (255, 255, 255)) none
        ⟨2, 7, some ⟨"#000000", "k"⟩, .empty, false, false, "", none, []⟩
        10 20).gameOver = true ∧
    (handleCanvasClick (fun _ _ => some (255, 255, 255)) none
        ⟨2, 7, some ⟨"#000000", "k"⟩, .empty, false, false, "", none, []⟩
        10 20).submissions = [] := by
  have hread : readPixel 300 (fun _ _ => some ((255:ℕ), (255:ℕ), (255:ℕ))) 10 20 =
      (255, 255, 255) := by decide
  have hp1 : parseIntHex (jsSlice "#FFFFFF" 1 3) = some 255 := by decide
  have hp2 : parseIntHex (jsSlice "#FFFFFF" 3 5) = some 255 := by decide
  have hp3 : parseIntHex (jsSlice "#FFFFFF" 5 7) = some 255 := by decide
  have hq1 : parseIntHex (jsSlice "#000000" 1 3) = some 0 := by decide
  have hq2 : parseIntHex (jsSlice "#000000" 3 5) = some 0 := by decide
  have hq3 : parseIntHex (jsSlice "#000000" 5 7) = some 0 := by decide
  have hval : similarityOfChannels ((255:ℕ):ℝ) ((255:ℕ):ℝ) ((255:ℕ):ℝ)
      ((0:ℕ):ℝ) ((0:ℕ):ℝ) ((0:ℕ):ℝ) = 0 := by
    unfold similarityOfChannels
    push_cast
    rw [show ((255:ℝ) - 0) ^ 2 + ((255:ℝ) - 0) ^ 2 + ((255:ℝ) - 0) ^ 2 =
        3 * 255 ^ 2 from by norm_num]
    rw [div_self (by positivity : Real.sqrt ((3:ℝ) * 255 ^ 2) ≠ 0)]
    norm_num
  have hsim : calculateSimilarity
      (rgbToHex (readPixel 300 (fun _ _ => some ((255:ℕ), (255:ℕ), (255:ℕ))) 10 20).1
        (readPixel 300 (fun _ _ => some ((255:ℕ), (255:ℕ), (255:ℕ))) 10 20).2.1
        (readPixel 300 (fun _ _ => some ((255:ℕ), (255:ℕ), (255:ℕ))) 10 20).2.2)
      (Color.hex ⟨"#000000", "k"⟩) = some 0 := by
    rw [hread]
    have hhex : rgbToHex 255 255 255 = "#FFFFFF" := by decide
    rw [hhex]
    show calculateSimilarity "#FFFFFF" "#000000" = some 0
    simp only [calculateSimilarity, hp1, hp2, hp3, hq1, hq2, hq3]
    rw [hval]
  have h := (handleCanvasClick_resolution (fun _ _ => some (255, 255, 255)) none
      ⟨2, 7, some ⟨"#000000", "k"⟩, .empty, false, false, "", none, []⟩
      10 20 ⟨"#000000", "k"⟩ rfl rfl rfl 0 hsim).2 (by norm_num)
  exact ⟨h.1, h.2.2.1 (by decide)⟩

/-- **C1 (amended)**: resolving a click with a target set while the round is
in progress: if the similarity is ≥ 90 the cumulative score is incremented
by exactly 1, no leaderboard submission occurs and the game is not over;
if the similarity is < 90 the session transitions to game over and exactly
one submission of the pre-click cumulative score is triggered precisely
when a display name is available (stored nonempty, or entered at the
prompt) — with no available name the game still ends and nothing is
submitted. In all cases submission can happen only on game-over, never
mid-session. -/
theorem claim_C1_amended (raster : ℕ → ℕ → Option (ℕ × ℕ × ℕ))
    (prompted : Option String) (st : GameState) (x y : ℤ) (t : Color)
    (hgo : st.gameOver = false) (hnb : st.showNextButton = false)
    (htc : st.targetColor = some t) (v : ℝ)
    (hsim : calculateSimilarity
        (rgbToHex (readPixel 300 raster x y).1 (readPixel 300 raster x y).2.1
          (readPixel 300 raster x y).2.2) t.hex = some v) :
    (90 ≤ v →
      (handleCanvasClick raster prompted st x y).score = st.score + 1 ∧
      (handleCanvasClick raster prompted st x y).submissions = st.submissions ∧
      (handleCanvasClick raster prompted st x y).gameOver = false) ∧
    (v < 90 →
      (handleCanvasClick raster prompted st x y).gameOver = true ∧
      (handleCanvasClick raster prompted st x y).score = st.score ∧
      (resolveName st.displayName prompted = "" →
        (handleCanvasClick raster prompted st x y).submissions = st.submissions) ∧
      (resolveName st.displayName prompted ≠ "" →
        (handleCanvasClick raster prompted st x y).submissions =
          st.submissions ++ [(resolveName st.displayName prompted, st.score)])) :=
  handleCanvasClick_resolution raster prompted st x y t hgo hnb htc v hsim

/-- **C9**: `rgbToHsl` is total and safe on channels in `[0, 255]`: the
divisions happen only in the `d ≠ 0` branch where the saturation
denominator `1 - |2l - 1|` is provably nonzero, and the result satisfies
`h ∈ [0, 360)`, `s ∈ [0, 1]`, `l ∈ [0, 1]`, with `h = 0` and `s = 0` in the
achromatic case `max = min`. -/
theorem claim_C9_rgbToHsl_total_safe (r g b : ℚ) (hr0 : 0 ≤ r) (hr : r ≤ 255)
    (hg0 : 0 ≤ g) (hg : g ≤ 255) (hb0 : 0 ≤ b) (hbb : b ≤ 255) :
    (0 ≤ (rgbToHsl r g b).1 ∧ (rgbToHsl r g b).1 < 360) ∧
    (0 ≤ (rgbToHsl r g b).2.1 ∧ (rgbToHsl r g b).2.1 ≤ 1) ∧
    (0 ≤ (rgbToHsl r g b).2.2 ∧ (rgbToHsl r g b).2.2 ≤ 1) ∧
    (max (max (r / 255) (g / 255)) (b / 255) = min (min (r / 255) (g / 255)) (b / 255) →
      (rgbToHsl r g b).1 = 0 ∧ (rgbToHsl r g b).2.1 = 0) ∧
    (max (max (r / 255) (g / 255)) (b / 255) ≠ min (min (r / 255) (g / 255)) (b / 255) →
      1 - |2 * ((max (max (r / 255) (g / 255)) (b / 255) +
        min (min (r / 255) (g / 255)) (b / 255)) / 2) - 1| ≠ 0) :=
  rgbToHsl_range hr0 hr hg0 hg hb0 hbb

theorem claim_C9_witness :
    0 ≤ (rgbToHsl (10:ℚ) 20 30).1 ∧ (rgbToHsl (10:ℚ) 20 30).1 < 360 :=
  (claim_C9_rgbToHsl_total_safe 10 20 30 (by norm_num) (by norm_num) (by norm_num)
    (by norm_num) (by norm_num) (by norm_num)).1

theorem claim_C6_witness :
    ∃ p : ℤ × ℤ × ℤ, wheelPixel 300 150 150 = some p ∧
      0 ≤ p.1 ∧ p.1 ≤ 255 ∧ 0 ≤ p.2.1 ∧ p.2.1 ≤ 255 ∧ 0 ≤ p.2.2 ∧ p.2.2 ≤ 255 :=
  (claim_C6_disc_render 150 150 (by norm_num) (by norm_num)).2
    (by norm_num [Real.sqrt_zero])

theorem claim_C5_witness : similarityOfChannels 0 0 0 255 255 255 = 0 := by
  have h := ((claim_C5_similarity_extremes 0 0 0 255 255 255 le_rfl (by norm_num)
    le_rfl (by norm_num) le_rfl (by norm_num) (by norm_num) le_rfl (by norm_num)
    le_rfl (by norm_num) le_rfl).2).mpr ⟨by decide, by decide, by decide⟩
  simpa using h

theorem claim_C10_witness :
    calculateSimilarity (rgbToHex 255 0 0) (rgbToHex 0 0 255) =
      some (similarityOfChannels ((255:ℕ):ℝ) ((0:ℕ):ℝ) ((0:ℕ):ℝ) ((0:ℕ):ℝ)
        ((0:ℕ):ℝ) ((255:ℕ):ℝ)) :=
  (claim_C10_hex_roundtrip 255 0 0 0 0 255 le_rfl (by norm_num) (by norm_num)
    (by norm_num) (by norm_num) le_rfl).2

theorem claim_C1_witness :
    (handleCanvasClick (fun _ _ => some (255, 0, 0)) none
        ⟨3, 0, some ⟨"#FF0000", "x"⟩, .empty, false, false, "player", none, []⟩
        10 20).score = 3 + 1 ∧
    (handleCanvasClick (fun _ _ => some (255, 0, 0)) none
        ⟨3, 0, some ⟨"#FF0000", "x"⟩, .empty, false, false, "player", none, []⟩
        10 20).submissions = [] ∧
    (handleCanvasClick (fun _ _ => some (255, 0, 0)) none
        ⟨3, 0, some ⟨"#FF0000", "x"⟩, .empty, false, false, "player", none, []⟩
        10 20).gameOver = false := by
  have hread : readPixel 300 (fun _ _ => some ((255:ℕ), (0:ℕ), (0:ℕ))) 10 20 =
      (255, 0, 0) := by decide
  have hp1 : parseIntHex (jsSlice "#FF0000" 1 3) = some 255 := by decide
  have hp2 : parseIntHex (jsSlice "#FF0000" 3 5) = some 0 := by decide
  have hp3 : parseIntHex (jsSlice "#FF0000" 5 7) = some 0 := by decide
  have hsim : calculateSimilarity
      (rgbToHex (readPixel 300 (fun _ _ => some ((255:ℕ), (0:ℕ), (0:ℕ))) 10 20).1
        (readPixel 300 (fun _ _ => some ((255:ℕ), (0:ℕ), (0:ℕ))) 10 20).2.1
        (readPixel 300 (fun _ _ => some ((255:ℕ), (0:ℕ), (0:ℕ))) 10 20).2.2)
      (Color.hex ⟨"#FF0000", "x"⟩) = some 100 := by
    rw [hread]
    have hhex : rgbToHex 255 0 0 = "#FF0000" := by decide
    rw [hhex]
    show calculateSimilarity "#FF0000" "#FF0000" = some 100
    simp only [calculateSimilarity, hp1, hp2, hp3]
    norm_num [similarityOfChannels, Real.sqrt_zero]
  exact (claim_C1_amended (fun _ _ => some (255, 0, 0)) none
    ⟨3, 0, some ⟨"#FF0000", "x"⟩, .empty, false, false, "player", none, []⟩
    10 20 ⟨"#FF0000", "x"⟩ rfl rfl rfl 100 hsim).1 (by norm_num)

end Colors
